import Mathlib

/-!
Verification of the conversational session/turn controller implemented in
`src/index.ts`: an Express server with a single chat endpoint
(`POST /api/chat`) and a health endpoint (`GET /api/health`).

The embedding models the handler's observable behaviour:
  * `ServerState` holds the module-level mutable globals: the lazily
    created engine binding (`agent` together with `config`) and the
    shared `messageHistory`.
  * A reasoning engine (`Agent`) is a function from the full message
    history and the session config to the stream of chunks it yields for
    that turn; the stream may raise after emitting a prefix
    (`throwsAfter`), modelling `for await` pulling a step that throws.
  * `handleChat` is the `POST /api/chat` handler: validation, lazy
    one-time binding, pushing the user message, the chunk loop, and the
    JSON response.  `handleHealth` is the `GET /api/health` handler.
`ChatResult.engineCall` records the arguments of the `agent.stream`
invocation when the handler reaches it (`none` when the engine was never
invoked), so that theorems can speak about what was passed to the engine.
-/

/-- Conversational role of a message (`HumanMessage` is a user message,
agent chunks carry agent messages, tools chunks carry tool messages). -/
inductive Role where
  | user
  | agent
  | tool
  deriving DecidableEq, Repr

/-- One conversational utterance: a role plus text content. -/
structure Message where
  role : Role
  content : String
  deriving DecidableEq, Repr

/-- One chunk yielded by `agent.stream`.  The handler tests
`"agent" in chunk`, then `"tools" in chunk`, and ignores anything else;
each recognised chunk carries a list of messages (`chunk.agent.messages`
resp. `chunk.tools.messages`). -/
inductive Chunk where
  | agentChunk (messages : List Message)
  | toolsChunk (messages : List Message)
  | other
  deriving DecidableEq, Repr

/-- The stream an engine produces for one turn: the chunks it emits, and
whether pulling the next chunk after them raises an error. -/
structure EngineStream where
  chunks : List Chunk
  throwsAfter : Bool

/-- The session config produced by the one-time setup:
`{ configurable: { thread_id: "Solana Agent Kit!" } }`. -/
structure Config where
  thread_id : String
  deriving DecidableEq, Repr

/-- The config value the setup code builds. -/
def madeConfig : Config := { thread_id := "Solana Agent Kit!" }

/-- A reasoning engine: `agent.stream({ messages }, config)` yields a
stream of chunks determined by the history and the config. -/
def Agent : Type := List Message → Config → EngineStream

/-- The module-level mutable globals of the server: `agent`/`config`
(set together on first successful setup, `none` beforehand) and the
shared `messageHistory`. -/
structure ServerState where
  binding : Option (Agent × Config)
  messageHistory : List Message

/-- State of the server at process start: no engine binding yet and an
empty message history. -/
def startState : ServerState :=
  { binding := none, messageHistory := [] }

/-- JSON body of a response: `{ "response": s }`, `{ "error": s }`, or
`{ "status": s }`. -/
inductive Body where
  | responseJson (response : String)
  | errorJson (error : String)
  | statusJson (status : String)
  deriving DecidableEq, Repr

/-- An HTTP response: status code and JSON body. -/
structure HttpResponse where
  status : Nat
  body : Body
  deriving DecidableEq, Repr

/-- The `400 { "error": "Message is required" }` response. -/
def badRequestResponse : HttpResponse :=
  { status := 400, body := Body.errorJson "Message is required" }

/-- The `500 { "error": "Internal server error" }` response. -/
def serverErrorResponse : HttpResponse :=
  { status := 500, body := Body.errorJson "Internal server error" }

/-- Result of one `POST /api/chat` request: the HTTP response, the
globals after the request, and the arguments `agent.stream` was invoked
with (`none` when the engine was never invoked). -/
structure ChatResult where
  response : HttpResponse
  state : ServerState
  engineCall : Option (List Message × Config)

/-- The `for await (const chunk of stream)` loop body, folded over the
emitted chunks.  For an agent chunk the handler reads
`chunk.agent.messages[0]`, pushes its content onto `responses` and the
message itself onto `messageHistory`; for a tools chunk it only reads
`chunk.tools.messages[0].content` for logging; other chunks are skipped.
Reading `messages[0]` of an empty list raises a `TypeError` (`undefined`
has no `content`), which aborts the loop: the first component is `none`
and the second component is the history mutated so far. -/
def processChunks : List Chunk → List String → List Message →
    Option (List String) × List Message
  | [], responses, history => (some responses, history)
  | Chunk.agentChunk msgs :: rest, responses, history =>
      match msgs with
      | [] => (none, history)
      | m :: _ => processChunks rest (responses ++ [m.content]) (history ++ [m])
  | Chunk.toolsChunk msgs :: rest, responses, history =>
      match msgs with
      | [] => (none, history)
      | _ :: _ => processChunks rest responses history
  | Chunk.other :: rest, responses, history => processChunks rest responses history

/-- Run the whole loop over a stream: process the emitted chunks and, if
the stream then raises, fail while keeping the history mutations made so
far. -/
def runLoop (s : EngineStream) (history : List Message) :
    Option (List String) × List Message :=
  match processChunks s.chunks [] history with
  | (none, h) => (none, h)
  | (some responses, h) =>
      if s.throwsAfter then (none, h) else (some responses, h)

/-- The part of the chat handler after validation and binding: push the
new `HumanMessage` onto the history, invoke `agent.stream` with the full
history and the config, drive the loop, and answer
`200 { response: responses.join('') }` on success or the generic 500 on
any error thrown inside the `try`.  History mutations made before a
failure persist. -/
def runTurn (a : Agent) (c : Config) (st : ServerState) (msg : String) :
    ChatResult :=
  let hist1 := st.messageHistory ++ [{ role := Role.user, content := msg }]
  match runLoop (a hist1 c) hist1 with
  | (none, hist2) =>
      { response := serverErrorResponse,
        state := { st with messageHistory := hist2 },
        engineCall := some (hist1, c) }
  | (some responses, hist2) =>
      { response := { status := 200, body := Body.responseJson (String.join responses) },
        state := { st with messageHistory := hist2 },
        engineCall := some (hist1, c) }

/-- The `POST /api/chat` handler.  `message` is the request-body field
(`none` when absent); a falsy value (absent or empty string) is rejected
with 400 before anything else.  If the binding is not yet present the
one-time setup runs: `setup` is its outcome for this attempt (`none`
models `initializeAgent` throwing, in which case the catch block answers
500 and the globals stay unset).  Otherwise the turn runs with the
already-stored binding; `setup` is not consulted. -/
def handleChat (setup : Option (Agent × Config)) (st : ServerState)
    (message : Option String) : ChatResult :=
  match message with
  | none => { response := badRequestResponse, state := st, engineCall := none }
  | some msg =>
      if msg = "" then
        { response := badRequestResponse, state := st, engineCall := none }
      else
        match st.binding with
        | some (a, c) => runTurn a c st msg
        | none =>
            match setup with
            | none =>
                { response := serverErrorResponse, state := st, engineCall := none }
            | some (a, c) =>
                runTurn a c { st with binding := some (a, c) } msg

/-- The `GET /api/health` handler: it reads none of the globals and
always answers `200 { "status": "ok" }`. -/
def handleHealth (_st : ServerState) : HttpResponse :=
  { status := 200, body := Body.statusJson "ok" }

/-- A sequence of `POST /api/chat` requests processed in order, each
carrying the outcome the one-time setup would have on that request (used
only if the binding is still absent) and its message field.  Returns the
list of per-request results and the final globals. -/
def runRequests : ServerState →
    List (Option (Agent × Config) × Option String) →
    List ChatResult × ServerState
  | st, [] => ([], st)
  | st, (setup, msg) :: rest =>
      let r := handleChat setup st msg
      let (rs, fin) := runRequests r.state rest
      (r :: rs, fin)

/-- A chunk is well formed when its message list is nonempty (reading
`messages[0]` does not raise). -/
def Chunk.wf : Chunk → Bool
  | Chunk.agentChunk msgs => !msgs.isEmpty
  | Chunk.toolsChunk msgs => !msgs.isEmpty
  | Chunk.other => true

/-- Modelled from the spec: the agent-step texts of a chunk sequence, in
emission order — the content of the first message of each agent chunk. -/
def specAgentTexts : List Chunk → List String
  | [] => []
  | Chunk.agentChunk (m :: _) :: rest => m.content :: specAgentTexts rest
  | Chunk.agentChunk [] :: rest => specAgentTexts rest
  | Chunk.toolsChunk _ :: rest => specAgentTexts rest
  | Chunk.other :: rest => specAgentTexts rest

/-- Modelled from the spec: the agent messages of a chunk sequence, in
emission order — the first message of each agent chunk. -/
def specAgentMsgs : List Chunk → List Message
  | [] => []
  | Chunk.agentChunk (m :: _) :: rest => m :: specAgentMsgs rest
  | Chunk.agentChunk [] :: rest => specAgentMsgs rest
  | Chunk.toolsChunk _ :: rest => specAgentMsgs rest
  | Chunk.other :: rest => specAgentMsgs rest

/-! ## Helper lemmas -/

/-- On a well-formed chunk list the loop never raises: it returns the
accumulated responses extended by the agent-step texts, and the history
extended by the agent-step messages, both in emission order. -/
lemma processChunks_eq_of_wf :
    ∀ (cs : List Chunk) (acc : List String) (h : List Message),
      cs.all Chunk.wf = true →
      processChunks cs acc h =
        (some (acc ++ specAgentTexts cs), h ++ specAgentMsgs cs) := by
  intro cs
  induction cs with
  | nil =>
      intro acc h _
      simp [processChunks, specAgentTexts, specAgentMsgs]
  | cons c rest ih =>
      intro acc h hwf
      simp only [List.all_cons, Bool.and_eq_true] at hwf
      cases c with
      | agentChunk msgs =>
          cases msgs with
          | nil => simp [Chunk.wf] at hwf
          | cons m ms =>
              simp [processChunks, specAgentTexts, specAgentMsgs,
                ih _ _ hwf.2, List.append_assoc]
      | toolsChunk msgs =>
          cases msgs with
          | nil => simp [Chunk.wf] at hwf
          | cons m ms =>
              simp [processChunks, specAgentTexts, specAgentMsgs, ih _ _ hwf.2]
      | other =>
          simp [processChunks, specAgentTexts, specAgentMsgs, ih _ _ hwf.2]

/-- A well-formed non-raising stream yields exactly the agent-step texts
and appends exactly the agent-step messages. -/
lemma runLoop_eq_of_wf (cs : List Chunk) (h : List Message)
    (hwf : cs.all Chunk.wf = true) :
    runLoop { chunks := cs, throwsAfter := false } h =
      (some (specAgentTexts cs), h ++ specAgentMsgs cs) := by
  simp [runLoop, processChunks_eq_of_wf cs [] h hwf]

/-- A well-formed stream that raises after its chunks still appends
exactly the agent-step messages, but the loop fails. -/
lemma runLoop_eq_of_wf_throws (cs : List Chunk) (h : List Message)
    (hwf : cs.all Chunk.wf = true) :
    runLoop { chunks := cs, throwsAfter := true } h =
      (none, h ++ specAgentMsgs cs) := by
  simp [runLoop, processChunks_eq_of_wf cs [] h hwf]

/-- `runTurn` never touches the engine binding. -/
lemma runTurn_binding (a : Agent) (c : Config) (st : ServerState) (msg : String) :
    (runTurn a c st msg).state.binding = st.binding := by
  unfold runTurn
  rcases hr : runLoop (a (st.messageHistory ++ [{ role := Role.user, content := msg }]) c)
      (st.messageHistory ++ [{ role := Role.user, content := msg }]) with ⟨r, h2⟩
  cases r <;> simp [hr]

/-- `runTurn` invokes the engine exactly once, with the history extended
by the new user message, and with the config it was given. -/
lemma runTurn_engineCall (a : Agent) (c : Config) (st : ServerState) (msg : String) :
    (runTurn a c st msg).engineCall =
      some (st.messageHistory ++ [{ role := Role.user, content := msg }], c) := by
  unfold runTurn
  rcases hr : runLoop (a (st.messageHistory ++ [{ role := Role.user, content := msg }]) c)
      (st.messageHistory ++ [{ role := Role.user, content := msg }]) with ⟨r, h2⟩
  cases r <;> simp [hr]

/-- A request hitting an already-bound controller keeps the binding and,
if it reaches the engine at all, passes the stored config. -/
lemma handleChat_bound (setup : Option (Agent × Config)) (a : Agent) (c : Config)
    (hist : List Message) (m : Option String) :
    (handleChat setup { binding := some (a, c), messageHistory := hist } m).state.binding
        = some (a, c) ∧
    ∀ call,
      (handleChat setup { binding := some (a, c), messageHistory := hist } m).engineCall
          = some call → call.2 = c := by
  cases m with
  | none => simp [handleChat]
  | some s =>
      by_cases hs : s = ""
      · simp [handleChat, hs]
      · constructor
        · simpa [handleChat, hs] using
            runTurn_binding a c { binding := some (a, c), messageHistory := hist } s
        · intro call hcall
          simp [handleChat, hs, runTurn_engineCall] at hcall
          rw [← hcall]

/-- From a bound state, any request sequence keeps the binding and every
engine invocation it performs uses the stored config. -/
lemma runRequests_bound (a : Agent) (c : Config) :
    ∀ (reqs : List (Option (Agent × Config) × Option String)) (st : ServerState),
      st.binding = some (a, c) →
      (runRequests st reqs).2.binding = some (a, c) ∧
      ∀ r ∈ (runRequests st reqs).1,
        ∀ call, r.engineCall = some call → call.2 = c := by
  intro reqs
  induction reqs with
  | nil =>
      intro st hst
      simpa [runRequests] using hst
  | cons req rest ih =>
      intro st hst
      obtain ⟨setup, m⟩ := req
      obtain ⟨b, hist⟩ := st
      simp only [ServerState.mk.injEq] at hst
      subst hst
      have hb := handleChat_bound setup a c hist m
      have ihr := ih _ hb.1
      simp only [runRequests]
      refine ⟨ihr.1, ?_⟩
      intro r hr call hcall
      rcases List.mem_cons.mp hr with h | h
      · subst h
        exact hb.2 call hcall
      · exact ihr.2 r h call hcall

/-! ## Claim theorems -/

/-- C1: For every turn, the Turn Result returned to the caller equals
the concatenation of the agent-step texts in the exact order the engine
emitted them, with no separator, no reordering and no deduplication. -/
theorem turn_result_concatenates_agent_texts_in_order
    (chunks : List Chunk) (c : Config) (hist : List Message) (msg : String)
    (hmsg : msg ≠ "") (hwf : chunks.all Chunk.wf = true) :
    (handleChat none
      { binding := some (fun _ _ => { chunks := chunks, throwsAfter := false }, c),
        messageHistory := hist } (some msg)).response =
      { status := 200, body := Body.responseJson (String.join (specAgentTexts chunks)) } := by
  simp [handleChat, hmsg, runTurn, runLoop_eq_of_wf chunks _ hwf]

/-- C1 witness: an engine yielding the two consecutive agent steps
`"A"` then `"B"` produces the Turn Result `"AB"`. -/
theorem turn_result_concatenates_agent_texts_in_order_witness :
    (handleChat none
      { binding := some (fun _ _ =>
          { chunks := [Chunk.agentChunk [{ role := Role.agent, content := "A" }],
                       Chunk.agentChunk [{ role := Role.agent, content := "B" }]],
            throwsAfter := false }, madeConfig),
        messageHistory := [] } (some "Hello")).response =
      { status := 200, body := Body.responseJson "AB" } := by
  have h := turn_result_concatenates_agent_texts_in_order
      [Chunk.agentChunk [{ role := Role.agent, content := "A" }],
       Chunk.agentChunk [{ role := Role.agent, content := "B" }]]
      madeConfig [] "Hello" (by decide) (by decide)
  rw [h]
  rfl

/-- C2: Tool-step output text is never included in the Turn Result: for
an engine that yields a tools chunk (with an arbitrary tool message)
followed by an agent step `"Done"`, the Turn Result is `"Done"` only. -/
theorem tool_output_excluded_from_turn_result
    (t : Message) (c : Config) (hist : List Message) (msg : String)
    (hmsg : msg ≠ "") :
    (handleChat none
      { binding := some (fun _ _ =>
          { chunks := [Chunk.toolsChunk [t],
                       Chunk.agentChunk [{ role := Role.agent, content := "Done" }]],
            throwsAfter := false }, c),
        messageHistory := hist } (some msg)).response =
      { status := 200, body := Body.responseJson "Done" } := by
  simp [handleChat, hmsg, runTurn, runLoop, processChunks, String.join]

/-- C2 witness. -/
theorem tool_output_excluded_from_turn_result_witness :
    (handleChat none
      { binding := some (fun _ _ =>
          { chunks := [Chunk.toolsChunk [{ role := Role.tool, content := "tool output" }],
                       Chunk.agentChunk [{ role := Role.agent, content := "Done" }]],
            throwsAfter := false }, madeConfig),
        messageHistory := [] } (some "Hi")).response =
      { status := 200, body := Body.responseJson "Done" } := by
  have h := tool_output_excluded_from_turn_result
      { role := Role.tool, content := "tool output" } madeConfig [] "Hi" (by decide)
  rw [h]

/-- C3: if the engine raises partway through a turn (here: after the
first of what would have been several steps), the request fails with the
generic 500 and the history keeps exactly the messages appended before
the failure — the new user message and the first agent message — neither
rolled back to the pre-turn history nor completed. -/
theorem engine_throw_gives_500_and_keeps_messages_appended_before_failure
    (m1 : Message) (c : Config) (hist : List Message) (msg : String)
    (hmsg : msg ≠ "") :
    (handleChat none
      { binding := some (fun _ _ =>
          { chunks := [Chunk.agentChunk [m1]], throwsAfter := true }, c),
        messageHistory := hist } (some msg)).response = serverErrorResponse ∧
    (handleChat none
      { binding := some (fun _ _ =>
          { chunks := [Chunk.agentChunk [m1]], throwsAfter := true }, c),
        messageHistory := hist } (some msg)).state.messageHistory =
      hist ++ [{ role := Role.user, content := msg }, m1] := by
  constructor <;> simp [handleChat, hmsg, runTurn, runLoop, processChunks]

/-- C3 witness. -/
theorem engine_throw_keeps_messages_witness :
    (handleChat none
      { binding := some (fun _ _ =>
          { chunks := [Chunk.agentChunk [{ role := Role.agent, content := "step one" }]],
            throwsAfter := true }, madeConfig),
        messageHistory := [] } (some "Hi")).response = serverErrorResponse ∧
    (handleChat none
      { binding := some (fun _ _ =>
          { chunks := [Chunk.agentChunk [{ role := Role.agent, content := "step one" }]],
            throwsAfter := true }, madeConfig),
        messageHistory := [] } (some "Hi")).state.messageHistory =
      [{ role := Role.user, content := "Hi" },
       { role := Role.agent, content := "step one" }] := by
  have h := engine_throw_gives_500_and_keeps_messages_appended_before_failure
      { role := Role.agent, content := "step one" } madeConfig [] "Hi" (by decide)
  exact ⟨h.1, h.2⟩

/-- C4: a request whose message field is absent or empty is answered
with `400 { "error": "Message is required" }` and nothing else happens:
the globals are unchanged (no user message appended, no binding made)
and the engine is never invoked. -/
theorem missing_or_empty_message_rejected_without_side_effects
    (setup : Option (Agent × Config)) (st : ServerState) (m : Option String)
    (hm : m = none ∨ m = some "") :
    handleChat setup st m =
      { response := badRequestResponse, state := st, engineCall := none } := by
  rcases hm with h | h <;> subst h <;> simp [handleChat]

/-- C4 witness. -/
theorem missing_or_empty_message_rejected_witness :
    handleChat none startState (some "") =
      { response := badRequestResponse, state := startState, engineCall := none } :=
  missing_or_empty_message_rejected_without_side_effects none startState
    (some "") (Or.inr rfl)

/-- C5: the one-time setup runs on the first invocation only.  If the
binding is already present, the request keeps it and the outcome does
not depend on the setup procedure at all (it is not re-run); if the
binding is absent and the setup fails, the request is answered with the
generic 500, the globals stay exactly as they were (still unbound) and
the engine is never invoked, so the next request attempts the setup
again; if that retried setup succeeds, the produced binding is stored. -/
theorem binding_created_once_failure_leaves_unbound_and_retries
    (setup setup2 : Option (Agent × Config)) (st : ServerState) (msg : String)
    (p : Agent × Config) (hmsg : msg ≠ "") :
    (st.binding = some p →
      (handleChat setup st (some msg)).state.binding = some p ∧
      handleChat setup st (some msg) = handleChat setup2 st (some msg)) ∧
    (st.binding = none → setup = none →
      handleChat setup st (some msg) =
        { response := serverErrorResponse, state := st, engineCall := none }) ∧
    (st.binding = none → ∀ a c, setup = some (a, c) →
      (handleChat setup st (some msg)).state.binding = some (a, c)) := by
  refine ⟨?_, ?_, ?_⟩
  · intro hb
    obtain ⟨a, c⟩ := p
    obtain ⟨b, hist⟩ := st
    simp only at hb
    subst hb
    exact ⟨(handleChat_bound setup a c hist (some msg)).1, by simp [handleChat, hmsg]⟩
  · intro hb hs
    subst hs
    obtain ⟨b, hist⟩ := st
    simp only at hb
    subst hb
    simp [handleChat, hmsg]
  · intro hb a c hs
    subst hs
    obtain ⟨b, hist⟩ := st
    simp only at hb
    subst hb
    simpa [handleChat, hmsg] using
      runTurn_binding a c { binding := some (a, c), messageHistory := hist } msg

/-- C5 witness: from the unbound start state, a failing setup yields the
generic 500 and leaves the state unchanged (still unbound). -/
theorem binding_created_once_witness :
    handleChat none startState (some "Hi") =
      { response := serverErrorResponse, state := startState, engineCall := none } := by
  have h := binding_created_once_failure_leaves_unbound_and_retries none none
      startState "Hi" (fun _ _ => { chunks := [], throwsAfter := false }, madeConfig)
      (by decide)
  exact h.2.1 rfl rfl

/-- C6: for a valid message and an engine that, with no tool calls,
yields a single agent step, the handler returns exactly that step's
content and the history grows by exactly two messages, the new user
message then the agent message. -/
theorem single_agent_step_returns_content_and_appends_two_messages
    (m : Message) (c : Config) (hist : List Message) (msg : String)
    (hmsg : msg ≠ "") :
    (handleChat none
      { binding := some (fun _ _ =>
          { chunks := [Chunk.agentChunk [m]], throwsAfter := false }, c),
        messageHistory := hist } (some msg)).response =
      { status := 200, body := Body.responseJson m.content } ∧
    (handleChat none
      { binding := some (fun _ _ =>
          { chunks := [Chunk.agentChunk [m]], throwsAfter := false }, c),
        messageHistory := hist } (some msg)).state.messageHistory =
      hist ++ [{ role := Role.user, content := msg }, m] := by
  constructor <;> simp [handleChat, hmsg, runTurn, runLoop, processChunks, String.join]

/-- C6 witness: message `"Hello"`, single agent step `"Hi there"`. -/
theorem single_agent_step_witness :
    (handleChat none
      { binding := some (fun _ _ =>
          { chunks := [Chunk.agentChunk [{ role := Role.agent, content := "Hi there" }]],
            throwsAfter := false }, madeConfig),
        messageHistory := [] } (some "Hello")).response =
      { status := 200, body := Body.responseJson "Hi there" } ∧
    (handleChat none
      { binding := some (fun _ _ =>
          { chunks := [Chunk.agentChunk [{ role := Role.agent, content := "Hi there" }]],
            throwsAfter := false }, madeConfig),
        messageHistory := [] } (some "Hello")).state.messageHistory =
      [{ role := Role.user, content := "Hello" },
       { role := Role.agent, content := "Hi there" }] := by
  have h := single_agent_step_returns_content_and_appends_two_messages
      { role := Role.agent, content := "Hi there" } madeConfig [] "Hello" (by decide)
  exact ⟨h.1, h.2⟩

/-- C7: once the binding (and with it the session config) exists, it is
never recreated: after any sequence of further requests the stored
config is still the same value, and every engine invocation performed by
those requests passes exactly that config. -/
theorem session_config_reused_for_every_subsequent_turn
    (a : Agent) (c : Config) (st : ServerState)
    (reqs : List (Option (Agent × Config) × Option String))
    (hst : st.binding = some (a, c)) :
    (runRequests st reqs).2.binding = some (a, c) ∧
    ∀ r ∈ (runRequests st reqs).1,
      ∀ call, r.engineCall = some call → call.2 = c :=
  runRequests_bound a c reqs st hst

/-- C7 witness: two subsequent requests against a bound controller. -/
theorem session_config_reused_witness :
    (runRequests
        { binding := some (fun _ _ => { chunks := [], throwsAfter := false }, madeConfig),
          messageHistory := [] }
        [(none, some "one"), (none, some "two")]).2.binding =
      some (fun _ _ => { chunks := [], throwsAfter := false }, madeConfig) ∧
    ∀ r ∈ (runRequests
        { binding := some (fun _ _ => { chunks := [], throwsAfter := false }, madeConfig),
          messageHistory := [] }
        [(none, some "one"), (none, some "two")]).1,
      ∀ call, r.engineCall = some call → call.2 = madeConfig :=
  session_config_reused_for_every_subsequent_turn
    (fun _ _ => { chunks := [], throwsAfter := false }) madeConfig _
    [(none, some "one"), (none, some "two")] rfl

/-- C8: `GET /api/health` answers `200 { "status": "ok" }` for every
server state — it reads nothing and checks nothing. -/
theorem health_endpoint_always_ok (st : ServerState) :
    handleHealth st = { status := 200, body := Body.statusJson "ok" } := rfl

/-- C9: tool-step observations are never appended to the durable
history: whatever the engine emits (raising afterwards or not), the
stored history after the turn is the prior history, the new user
message, and exactly the first messages of the agent chunks — no message
of any tools chunk is persisted (it is only logged). -/
theorem tool_steps_never_appended_to_transcript
    (chunks : List Chunk) (b : Bool) (c : Config) (hist : List Message)
    (msg : String) (hmsg : msg ≠ "") (hwf : chunks.all Chunk.wf = true) :
    (handleChat none
      { binding := some (fun _ _ => { chunks := chunks, throwsAfter := b }, c),
        messageHistory := hist } (some msg)).state.messageHistory =
      (hist ++ [{ role := Role.user, content := msg }]) ++ specAgentMsgs chunks := by
  cases b
  · simp [handleChat, hmsg, runTurn, runLoop_eq_of_wf chunks _ hwf]
  · simp [handleChat, hmsg, runTurn, runLoop_eq_of_wf_throws chunks _ hwf]

/-- C9 witness: a turn with one tool step stores only the user message
and the agent message. -/
theorem tool_steps_never_appended_witness :
    (handleChat none
      { binding := some (fun _ _ =>
          { chunks := [Chunk.toolsChunk [{ role := Role.tool, content := "observation" }],
                       Chunk.agentChunk [{ role := Role.agent, content := "ok" }]],
            throwsAfter := false }, madeConfig),
        messageHistory := [] } (some "Hi")).state.messageHistory =
      [{ role := Role.user, content := "Hi" },
       { role := Role.agent, content := "ok" }] := by
  have h := tool_steps_never_appended_to_transcript
      [Chunk.toolsChunk [{ role := Role.tool, content := "observation" }],
       Chunk.agentChunk [{ role := Role.agent, content := "ok" }]]
      false madeConfig [] "Hi" (by decide) (by decide)
  rw [h]
  rfl

/-- C10: within an agent chunk only `messages[0]` is recorded — any
further messages of the same chunk contribute neither to the result nor
to the history — and a chunk recognised neither as agent nor as tools is
skipped silently: no append, no contribution, no error. -/
theorem only_first_chunk_message_recorded_and_unrecognised_chunks_ignored
    (m1 : Message) (extra : List Message) (c : Config) (hist : List Message)
    (msg : String) (hmsg : msg ≠ "") :
    (handleChat none
      { binding := some (fun _ _ =>
          { chunks := [Chunk.other, Chunk.agentChunk (m1 :: extra), Chunk.other],
            throwsAfter := false }, c),
        messageHistory := hist } (some msg)).response =
      { status := 200, body := Body.responseJson m1.content } ∧
    (handleChat none
      { binding := some (fun _ _ =>
          { chunks := [Chunk.other, Chunk.agentChunk (m1 :: extra), Chunk.other],
            throwsAfter := false }, c),
        messageHistory := hist } (some msg)).state.messageHistory =
      hist ++ [{ role := Role.user, content := msg }, m1] := by
  constructor <;> simp [handleChat, hmsg, runTurn, runLoop, processChunks, String.join]

/-- C10 witness: two extra messages in the agent chunk are dropped and
the surrounding unrecognised chunks are ignored. -/
theorem only_first_chunk_message_recorded_witness :
    (handleChat none
      { binding := some (fun _ _ =>
          { chunks := [Chunk.other,
                       Chunk.agentChunk
                         [{ role := Role.agent, content := "kept" },
                          { role := Role.agent, content := "dropped one" },
                          { role := Role.agent, content := "dropped two" }],
                       Chunk.other],
            throwsAfter := false }, madeConfig),
        messageHistory := [] } (some "Hi")).response =
      { status := 200, body := Body.responseJson "kept" } ∧
    (handleChat none
      { binding := some (fun _ _ =>
          { chunks := [Chunk.other,
                       Chunk.agentChunk
                         [{ role := Role.agent, content := "kept" },
                          { role := Role.agent, content := "dropped one" },
                          { role := Role.agent, content := "dropped two" }],
                       Chunk.other],
            throwsAfter := false }, madeConfig),
        messageHistory := [] } (some "Hi")).state.messageHistory =
      [{ role := Role.user, content := "Hi" },
       { role := Role.agent, content := "kept" }] := by
  have h := only_first_chunk_message_recorded_and_unrecognised_chunks_ignored
      { role := Role.agent, content := "kept" }
      [{ role := Role.agent, content := "dropped one" },
       { role := Role.agent, content := "dropped two" }]
      madeConfig [] "Hi" (by decide)
  exact ⟨h.1, h.2⟩
